import Mathlib

/-!
Shallow embedding of the Neuro-Symbolic narrative trajectory engine.

Sources embedded here (TypeScript):
* `types.ts` — `EventType`, `GenerationStep`, `TransitionMatrix`,
  `TrajectoryModel`, `ConstraintConfig`, `DiscoveredPath`.
* `constants.ts` (the 11-label iteration) — `EVENT_TYPES`, `TRAJECTORY_BINS`,
  `GLOBAL_CONSTRAINTS`, `createRow`, `getMatrixForStep`.
* `App.tsx` (the 11-label iteration, `src/unnamed/part_000`) —
  `selectNextEvent` (constraint layer, self-loop penalty 0.3, degenerate-row
  fallback, inverse-CDF sampler) and the generate/verify retry loop of
  `runNeuroLoop`; the older `App.tsx` iteration contributes the 0.5 self-loop
  penalty, embedded as `legacySelfLoopWeight`.
* `services/trainingService.ts` — segment-classification failure handling,
  Laplace-smoothed row construction, path aggregation, `generatePathName`.

JavaScript numbers are modelled by `ℚ` (the computations involved are field
operations, `Math.floor`, `min`/`max` and comparisons, all exact on the
inputs the program builds).  The uniform random draw `Math.random()` is an
explicit parameter `r` with `0 ≤ r < 1`.  A thrown exception / JS `undefined`
propagating out of a function is modelled by `Option` (`none` = no value).
JS iteration order of `Object.entries` over rows built by the program is the
declaration order of the enum, i.e. `EVENT_TYPES`.
-/

namespace NeuroSymbolic

/-- The fixed 11-symbol event alphabet, from `types.ts` (`enum EventType`). -/
inductive EventType where
  | Introduction
  | Inciting_Incident
  | Rising_Action
  | Conflict
  | Revelation
  | Climax
  | Falling_Action
  | Resolution
  | Story_End
  | Dialogue
  | Description
deriving DecidableEq, Repr, Fintype

/-- String value of each enum member, from `types.ts` (string enum). -/
def eventLabelString : EventType → String
  | .Introduction => "Introduction"
  | .Inciting_Incident => "Inciting_Incident"
  | .Rising_Action => "Rising_Action"
  | .Conflict => "Conflict"
  | .Revelation => "Revelation"
  | .Climax => "Climax"
  | .Falling_Action => "Falling_Action"
  | .Resolution => "Resolution"
  | .Story_End => "Story_End"
  | .Dialogue => "Dialogue"
  | .Description => "Description"

/-- `EVENT_TYPES = Object.values(EventType)`: the alphabet in declaration
order (`constants.ts`). -/
def EVENT_TYPES : List EventType :=
  [.Introduction, .Inciting_Incident, .Rising_Action, .Conflict, .Revelation,
   .Climax, .Falling_Action, .Resolution, .Story_End, .Dialogue, .Description]

/-- `TRAJECTORY_BINS = 20` (`constants.ts`). -/
def TRAJECTORY_BINS : ℕ := 20

/-- A transition matrix row/table: `Record<EventType, Record<EventType, number>>`. -/
def TransitionMatrix : Type := EventType → EventType → ℚ

/-- One committed position of a run (`interface GenerationStep`). -/
structure GenerationStep where
  stepIndex : ℕ
  selectedEvent : EventType
  generatedText : String
  verificationScore : ℚ
  verified : Bool
  retryCount : ℕ
  timestamp : ℕ
  promptUsed : String
deriving DecidableEq, Repr

/-- Per-label constraint rule (`interface ConstraintConfig`). -/
structure ConstraintConfig where
  maxOccurrences : Option ℕ := none
  minStepProgress : Option ℚ := none
  cooldown : Option ℕ := none
  requiresEvent : Option EventType := none
deriving DecidableEq, Repr

/-- A mined archetype (`interface DiscoveredPath`). -/
structure DiscoveredPath where
  id : String
  sequence : List EventType
  frequency : ℕ
  percentage : ℚ
  name : String
deriving DecidableEq, Repr

/-- `GLOBAL_CONSTRAINTS` from `constants.ts`, verbatim per label. -/
def GLOBAL_CONSTRAINTS : EventType → ConstraintConfig
  | .Introduction => { maxOccurrences := some 1, cooldown := some 0 }
  | .Inciting_Incident => { maxOccurrences := some 1, minStepProgress := some (5/100) }
  | .Rising_Action => { cooldown := some 1, requiresEvent := some .Inciting_Incident }
  | .Conflict => { cooldown := some 0, requiresEvent := some .Rising_Action }
  | .Revelation =>
      { maxOccurrences := some 1, minStepProgress := some (4/10),
        requiresEvent := some .Rising_Action }
  | .Climax =>
      { maxOccurrences := some 1, minStepProgress := some (6/10),
        requiresEvent := some .Conflict }
  | .Falling_Action => { minStepProgress := some (7/10), requiresEvent := some .Climax }
  | .Resolution =>
      { maxOccurrences := some 1, minStepProgress := some (8/10),
        requiresEvent := some .Climax }
  | .Story_End =>
      { maxOccurrences := some 1, minStepProgress := some (9/10),
        requiresEvent := some .Resolution }
  | .Dialogue => { cooldown := some 0 }
  | .Description => { cooldown := some 2 }

/-! ### Row construction (`createRow`, `constants.ts`)

`createRow` merges the given partial weights over a defaults table in which
every label weighs `0.01`, then divides by the total.  There is no input
validation anywhere in the source: negative weights are normalized like any
others. -/

/-- The merge `{ ...defaults, ...weights }`: a provided weight overrides the
`0.01` default. -/
def mergedWeight (weights : EventType → Option ℚ) (e : EventType) : ℚ :=
  (weights e).getD (1/100)

/-- `Object.values(merged).reduce((sum, val) => sum + val, 0)`. -/
def rowTotal (weights : EventType → Option ℚ) : ℚ :=
  (EVENT_TYPES.map (mergedWeight weights)).sum

/-- `createRow` from `constants.ts`. -/
def createRow (weights : EventType → Option ℚ) : EventType → ℚ :=
  fun e => mergedWeight weights e / rowTotal weights

/-- Sum of a row over the alphabet (the spec's "row sums to 1" quantity). -/
def rowSum (row : EventType → ℚ) : ℚ :=
  (EVENT_TYPES.map row).sum

/-! ### `getMatrixForStep` (`constants.ts`)

`trajectory[binIndex] || trajectory[0]` yields JS `undefined` when both
indices are absent; that is the `none` of the `Option` result. -/

/-- The bin index the source computes:
`Math.floor(Math.min(0.99, Math.max(0, i / L)) * TRAJECTORY_BINS)`. -/
def sourceBinIndex (currentStepIndex totalSteps : ℕ) : ℕ :=
  (Int.floor (min (99/100 : ℚ) (max 0 ((currentStepIndex : ℚ) / (totalSteps : ℚ)))
      * (TRAJECTORY_BINS : ℚ))).toNat

/-- `getMatrixForStep` from `constants.ts`. -/
def getMatrixForStep (currentStepIndex totalSteps : ℕ)
    (trajectory : List TransitionMatrix) : Option TransitionMatrix :=
  if totalSteps = 0 then trajectory.get? 0
  else (trajectory.get? (sourceBinIndex currentStepIndex totalSteps)).orElse
    (fun _ => trajectory.get? 0)

/-- Bin index as the spec's §4.1 words state it: progress `p = i/L` clamped to
`[0, 0.999]`, then `floor(p * B)`.  Spec-side definition, to be compared with
`sourceBinIndex` (which clamps at `0.99`). -/
def specBinIndex (position totalLength : ℕ) : ℕ :=
  (Int.floor (min (999/1000 : ℚ) (max 0 ((position : ℚ) / (totalLength : ℚ)))
      * (TRAJECTORY_BINS : ℚ))).toNat

/-! ### The constraint layer and selector (`selectNextEvent`, part_000)

The body of `entries.map` in `selectNextEvent` applies, in source order:
the `requiresEvent` hard gate, the `maxOccurrences` hard gate, the
`minStepProgress` hard gate, the `cooldown` soft dampening (`× 0.1`), and
finally the self-loop penalty (`× 0.3`). -/

/-- `history.filter(s => s.selectedEvent === event).length`. -/
def occurrenceCount (e : EventType) (history : List GenerationStep) : ℕ :=
  (history.filter (fun s => decide (s.selectedEvent = e))).length

/-- The `requiresEvent` hard gate. -/
def adjustRequires (e : EventType) (history : List GenerationStep) (p : ℚ) : ℚ :=
  match (GLOBAL_CONSTRAINTS e).requiresEvent with
  | some req =>
      if history.any (fun s => decide (s.selectedEvent = req)) then p else 0
  | none => p

/-- The `maxOccurrences` hard gate (`count >= maxOccurrences` zeroes). -/
def adjustMax (e : EventType) (history : List GenerationStep) (p : ℚ) : ℚ :=
  match (GLOBAL_CONSTRAINTS e).maxOccurrences with
  | some m => if m ≤ occurrenceCount e history then 0 else p
  | none => p

/-- The `minStepProgress` hard gate (`progress < minStepProgress` zeroes). -/
def adjustProgress (e : EventType) (progress : ℚ) (p : ℚ) : ℚ :=
  match (GLOBAL_CONSTRAINTS e).minStepProgress with
  | some mp => if progress < mp then 0 else p
  | none => p

/-- The `cooldown` soft dampening: the index of the most recent occurrence in
`[...history].reverse()` must be `≥ cooldown`, else the weight is `× 0.1`. -/
def adjustCooldown (e : EventType) (history : List GenerationStep) (p : ℚ) : ℚ :=
  match (GLOBAL_CONSTRAINTS e).cooldown with
  | some cd =>
      match history.reverse.findIdx? (fun s => decide (s.selectedEvent = e)) with
      | some idx => if idx < cd then p * (1/10) else p
      | none => p
  | none => p

/-- The full weight adjustment applied to one candidate entry by
`selectNextEvent` (constraints, then the `0.3` self-loop penalty). -/
def adjustedWeight (history : List GenerationStep) (progress : ℚ)
    (prevEvent e : EventType) (p : ℚ) : ℚ :=
  let p1 := adjustRequires e history p
  let p2 := adjustMax e history p1
  let p3 := adjustProgress e progress p2
  let p4 := adjustCooldown e history p3
  if e = prevEvent then p4 * (3/10) else p4

/-- Self-loop dampening of the older `App.tsx` iteration
(`prob * 0.5` when `event === prevEvent`, no constraint layer). -/
def legacySelfLoopWeight (prevEvent event : EventType) (prob : ℚ) : ℚ :=
  if event = prevEvent then prob * (1/2) else prob

/-- The adjusted `entries` list of `selectNextEvent`, in `Object.entries`
order (= `EVENT_TYPES` order for rows the program builds). -/
def rowEntries (M : TransitionMatrix) (history : List GenerationStep)
    (progress : ℚ) (prevEvent : EventType) : List (EventType × ℚ) :=
  EVENT_TYPES.map (fun e => (e, adjustedWeight history progress prevEvent e (M prevEvent e)))

/-- `entries.reduce((sum, [, prob]) => sum + prob, 0)`. -/
def totalAdjustedWeight (M : TransitionMatrix) (history : List GenerationStep)
    (progress : ℚ) (prevEvent : EventType) : ℚ :=
  ((rowEntries M history progress prevEvent).map Prod.snd).sum

/-- The inverse-CDF walk: return the first entry whose cumulative weight
reaches the draw `r`; `none` when the loop falls through. -/
def pickFrom (r : ℚ) : ℚ → List (EventType × ℚ) → Option EventType
  | _, [] => none
  | cum, (e, p) :: rest =>
      if r ≤ cum + p then some e else pickFrom r (cum + p) rest

/-- Dynamic (Markov) mode of `selectNextEvent`, given the already-fetched
matrix: constraint adjustment, the `totalWeight <= 0.0001` degenerate
fallback, normalization, and the sampler with its last-entry fallback.
(The last-entry fallback's `getD` default is unreachable: the entries list is
the 11-label alphabet, never empty.) -/
def dynamicSelect (M : TransitionMatrix) (stepIndex : ℕ) (prevEvent : EventType)
    (totalLength : ℕ) (history : List GenerationStep) (r : ℚ) : EventType :=
  let progress : ℚ := (stepIndex : ℚ) / (totalLength : ℚ)
  let entries := rowEntries M history progress prevEvent
  let totalWeight := (entries.map Prod.snd).sum
  if totalWeight ≤ 1/10000 then
    match entries.find? (fun x => decide (0 < x.2)) with
    | some x => x.1
    | none => EventType.Rising_Action
  else
    let normalizedEntries := entries.map (fun x => (x.1, x.2 / totalWeight))
    match pickFrom r 0 normalizedEntries with
    | some e => e
    | none => ((normalizedEntries.getLast?).map Prod.fst).getD EventType.Rising_Action

/-- `selectNextEvent` from `part_000`: archetype override first (truthiness of
`activeArchetype.sequence[stepIndex]` = `Option.get?` success), else dynamic
mode on the fetched matrix.  `none` models the `TypeError` that JS would raise
reading a row off an `undefined` matrix (empty trajectory). -/
def selectNextEvent (activeArchetype : Option DiscoveredPath) (stepIndex : ℕ)
    (prevEvent : EventType) (trajectory : List TransitionMatrix)
    (totalLength : ℕ) (history : List GenerationStep) (r : ℚ) : Option EventType :=
  match activeArchetype with
  | some arch =>
      match arch.sequence.get? stepIndex with
      | some e => some e
      | none => (getMatrixForStep stepIndex totalLength trajectory).map
          (fun M => dynamicSelect M stepIndex prevEvent totalLength history r)
  | none => (getMatrixForStep stepIndex totalLength trajectory).map
      (fun M => dynamicSelect M stepIndex prevEvent totalLength history r)

/-- The step-0 branch of `runNeuroLoop`:
`nextEvent = activeArchetype ? activeArchetype.sequence[0] : EventType.Introduction`.
With an archetype whose sequence is empty, `sequence[0]` is JS `undefined`
(`none`). -/
def stepZeroEvent : Option DiscoveredPath → Option EventType
  | some arch => arch.sequence.get? 0
  | none => some EventType.Introduction

/-! ### Hard-gate predicates (the spec's §4.2 conditions, decidable) -/

/-- The label's rule has a `requiresEvent` that no step of `history` carries. -/
def unmetRequiresB (e : EventType) (history : List GenerationStep) : Bool :=
  match (GLOBAL_CONSTRAINTS e).requiresEvent with
  | some req => !(history.any (fun s => decide (s.selectedEvent = req)))
  | none => false

/-- The label's rule has a `maxOccurrences` already reached in `history`. -/
def exhaustedMaxB (e : EventType) (history : List GenerationStep) : Bool :=
  match (GLOBAL_CONSTRAINTS e).maxOccurrences with
  | some m => decide (m ≤ occurrenceCount e history)
  | none => false

/-- A candidate label is hard-gated: unmet `requiresEvent` or exhausted
`maxOccurrences`. -/
def hardGated (e : EventType) (history : List GenerationStep) : Prop :=
  unmetRequiresB e history = true ∨ exhaustedMaxB e history = true

instance (e : EventType) (history : List GenerationStep) :
    Decidable (hardGated e history) := by
  unfold hardGated; infer_instance

/-- Spec-side (§4.2 wording): the first label, in alphabet order, with
strictly positive original (pre-adjustment) probability in the row, defaulting
to the safety label. -/
def specFirstPositiveOriginal (M : TransitionMatrix) (prevEvent : EventType) : EventType :=
  match EVENT_TYPES.find? (fun e => decide (0 < M prevEvent e)) with
  | some e => e
  | none => EventType.Rising_Action

/-- The label the code's degenerate-row fallback produces: the first label,
in alphabet order, with strictly positive adjusted weight, defaulting to
`Rising_Action`. -/
def firstPositiveAdjusted (M : TransitionMatrix) (history : List GenerationStep)
    (progress : ℚ) (prevEvent : EventType) : EventType :=
  match EVENT_TYPES.find?
      (fun e => decide (0 < adjustedWeight history progress prevEvent e (M prevEvent e))) with
  | some e => e
  | none => EventType.Rising_Action

/-! ### Archetype miner (`trainingService.ts`)

The per-segment classification calls an external LLM.  Its outcome is either
a returned label string (`Except.ok`) or a thrown error (`Except.error`,
covering both a failed call and unparsable JSON — all are caught by the same
`catch`). -/

/-- `EVENT_TYPES.includes(predictedEvent)` plus the (string-enum) cast back to
a member: find the alphabet member whose string value is `s`. -/
def parseEventLabel (s : String) : Option EventType :=
  EVENT_TYPES.find? (fun e => decide (eventLabelString e = s))

/-- The label recorded for one classified segment: a hallucinated label
outside the alphabet is coerced to `Description`; a thrown classification
call is substituted by the `Rising_Action` filler (the `catch` branch). -/
def classifySegmentResult : Except Unit String → EventType
  | .ok s =>
      match parseEventLabel s with
      | some e => e
      | none => EventType.Description
  | .error _ => EventType.Rising_Action

/-- The path one story contributes: every (non-skipped) segment yields exactly
one label, failures included — no outcome aborts the loop. -/
def classifyStorySegments (outcomes : List (Except Unit String)) : List EventType :=
  outcomes.map classifySegmentResult

/-- Row total `Object.values(rowCounts).reduce((acc, val) => acc + val, 0)`
of one bin's count table. -/
def countsTotal (counts : EventType → ℕ) : ℚ :=
  (EVENT_TYPES.map (fun a => ((counts a : ℕ) : ℚ))).sum

/-- One Laplace-smoothed row built during training:
`prob = (count + 1) / (total + EVENT_TYPES.length)`. -/
def laplaceRow (counts : EventType → ℕ) : EventType → ℚ :=
  fun to_ => ((counts to_ : ℚ) + 1) / (countsTotal counts + (EVENT_TYPES.length : ℚ))

/-- `generatePathName` from `trainingService.ts` (fixed naming heuristic). -/
def generatePathName (sequence : List EventType) : String :=
  let hasRevelation := sequence.any (fun e => decide (e = .Revelation))
  let conflictCount := (sequence.filter (fun e => decide (e = .Conflict))).length
  let endType := sequence.getLast?
  if hasRevelation && decide (2 < conflictCount) then "Twisted Thriller Arc"
  else if decide (4 < conflictCount) then "High-Octane Action Arc"
  else if decide (endType = some .Resolution)
      && sequence.any (fun e => decide (e = .Climax)) then "Classic Hero Arc"
  else if decide (5 < (sequence.filter (fun e => decide (e = .Dialogue))).length) then
    "Dialogue-Driven Drama"
  else if decide (sequence.get? 0 = some .Inciting_Incident) then "In Media Res Start"
  else "Learned Pattern (Type " ++ toString sequence.length ++ ")"

/-- The distinct path keys of `pathFrequency`, in insertion (first-occurrence)
order, as `Object.entries` enumerates them.  Keys are modelled as label lists:
`join(',')` is injective on lists of the (comma-free, nonempty) label
strings, so string-key equality coincides with list equality. -/
def firstKeys (paths : List (List EventType)) : List (List EventType) :=
  paths.foldl (fun acc p => if p ∈ acc then acc else acc ++ [p]) []

/-- The frequency recorded for one key: how many processed stories produced
exactly that sequence. -/
def countPath (paths : List (List EventType)) (k : List EventType) : ℕ :=
  (paths.filter (fun p => decide (p = k))).length

/-- Insertion of one path into a frequency-descending ranking: `x` walks past
the strictly more frequent entries and lands in front of the first entry of
equal or smaller frequency.  Since `sortByFreqDesc` inserts each element into
the sorted ranking of the elements after it, an element stays ahead of
equal-frequency elements that followed it — the stability of the JS
`sort((a, b) => b.frequency - a.frequency)`. -/
def insertPath (x : DiscoveredPath) : List DiscoveredPath → List DiscoveredPath
  | [] => [x]
  | y :: ys => if y.frequency ≤ x.frequency then x :: y :: ys else y :: insertPath x ys

/-- Frequency-descending stable sort of the discovered paths. -/
def sortByFreqDesc : List DiscoveredPath → List DiscoveredPath
  | [] => []
  | x :: xs => insertPath x (sortByFreqDesc xs)

/-- The "Process Learned Paths" block of `trainModelFromDataset`: aggregate
the processed stories' paths by exact sequence equality, build one
`DiscoveredPath` per unique sequence (id from the entry index, frequency,
percentage of processed stories, heuristic name), rank by frequency
descending, keep the top 15. -/
def aggregatePaths (paths : List (List EventType)) : List DiscoveredPath :=
  let keys := firstKeys paths
  let ranked := sortByFreqDesc ((keys.enum).map (fun ik =>
    { id := "path-" ++ toString ik.1
      sequence := ik.2
      frequency := countPath paths ik.2
      percentage := ((countPath paths ik.2 : ℚ) / (paths.length : ℚ)) * 100
      name := generatePathName ik.2 : DiscoveredPath }))
  ranked.take 15

/-! ### Execution coordinator retry loop (`runNeuroLoop`)

One generate+verify attempt pair is externally produced; `attempts k` is the
outcome of the attempt issued while `retryCount = k`. -/

/-- Outcome of one generate/verify attempt pair. -/
structure AttemptResult where
  text : String
  promptUsed : String
  verified : Bool
  confidence : ℚ
deriving DecidableEq, Repr

/-- `MAX_RETRIES = 2` (`runNeuroLoop`). -/
def MAX_RETRIES : ℕ := 2

/-- The `while (!verified && retryCount <= MAX_RETRIES)` loop, entered with
the guard holding.  Returns (number of attempt pairs issued, final
`retryCount`, last attempt's result).  The loop body increments `retryCount`
on a failed attempt, so the measure `maxRetries + 1 - retryCount` decreases —
the source loop terminates for exactly this reason. -/
def retryLoopGo (attempts : ℕ → AttemptResult) (maxRetries retryCount : ℕ) :
    ℕ × ℕ × AttemptResult :=
  let a := attempts retryCount
  if a.verified then (1, retryCount, a)
  else if _h : retryCount + 1 ≤ maxRetries then
    let rest := retryLoopGo attempts maxRetries (retryCount + 1)
    (rest.1 + 1, rest.2.1, rest.2.2)
  else (1, retryCount + 1, a)
termination_by maxRetries + 1 - retryCount
decreasing_by omega

/-- The full retry loop of one position, as `runNeuroLoop` initializes it
(`verified = false`, `retryCount = 0`, `MAX_RETRIES = 2`). -/
def runRetryLoop (attempts : ℕ → AttemptResult) : ℕ × ℕ × AttemptResult :=
  retryLoopGo attempts MAX_RETRIES 0

/-- The `GenerationStep` committed after the loop: the last attempt's text and
verdict are recorded even when unverified. -/
def commitStep (stepIndex : ℕ) (selectedEvent : EventType) (timestamp : ℕ)
    (out : ℕ × ℕ × AttemptResult) : GenerationStep :=
  { stepIndex := stepIndex
    selectedEvent := selectedEvent
    generatedText := out.2.2.text
    verificationScore := out.2.2.confidence
    verified := out.2.2.verified
    retryCount := out.2.1
    timestamp := timestamp
    promptUsed := out.2.2.promptUsed }

/-! ### Concrete inputs used by witnesses and counterexamples -/

/-- The hand-authored weights of the `Introduction` row of `GENERIC_MATRIX`
(`createRow({ Inciting_Incident: 0.5, Description: 0.4, Dialogue: 0.1 })`). -/
def introRowWeights : EventType → Option ℚ := fun e =>
  match e with
  | .Inciting_Incident => some (1/2)
  | .Description => some (2/5)
  | .Dialogue => some (1/10)
  | _ => none

/-- A weight table with a negative entry, as a caller could hand to
`createRow`. -/
def negWeights : EventType → Option ℚ := fun e =>
  match e with
  | .Climax => some (-1)
  | _ => none

/-- An all-zero transition matrix. -/
def zeroMatrix : TransitionMatrix := fun _ _ => 0

/-- A history entry carrying a given label. -/
def mkStep (e : EventType) : GenerationStep :=
  { stepIndex := 0, selectedEvent := e, generatedText := "", verificationScore := 0,
    verified := false, retryCount := 0, timestamp := 0, promptUsed := "" }

/-- A matrix whose rows put weight only on `Introduction` and `Description`. -/
def selfLoopMatrix : TransitionMatrix := fun _ e =>
  match e with
  | .Introduction => 1/2
  | .Description => 1/2
  | _ => 0

/-- A matrix whose rows put almost all weight on `Introduction` plus a tiny
weight on `Dialogue` — once `Introduction` is hard-gated the adjusted row
total drops below the 1e-4 epsilon. -/
def degenMatrix : TransitionMatrix := fun _ e =>
  match e with
  | .Introduction => 9/10
  | .Dialogue => 1/20000
  | _ => 0

/-! ## Helper lemmas -/

theorem sum_map_div {α : Type} (l : List α) (f : α → ℚ) (c : ℚ) :
    (l.map (fun a => f a / c)).sum = (l.map f).sum / c := by
  induction l with
  | nil => simp
  | cons a t ih => simp [ih, add_div]

theorem sum_map_add_one {α : Type} (l : List α) (f : α → ℚ) :
    (l.map (fun a => f a + 1)).sum = (l.map f).sum + l.length := by
  induction l with
  | nil => simp
  | cons a t ih => simp [ih]; ring

theorem countsTotal_nonneg (counts : EventType → ℕ) : 0 ≤ countsTotal counts := by
  apply List.sum_nonneg
  intro x hx
  simp only [countsTotal, List.mem_map] at hx
  obtain ⟨a, -, rfl⟩ := hx
  positivity

/-! ## C2 — row construction validity -/

/-- C2: every row built by `createRow` from non-negative input weights (with
positive merged total) sums to exactly 1 — hence within the 1e-6 tolerance —
and has no negative entry; every Laplace-smoothed training row sums to
exactly 1 and is strictly positive everywhere.  (The claim's further clause,
that negative inputs are rejected at construction, is refuted by
`createRow_accepts_negative`.) -/
theorem row_construction_valid (weights : EventType → Option ℚ)
    (counts : EventType → ℕ) (e : EventType)
    (hw : ∀ a : EventType, 0 ≤ mergedWeight weights a)
    (hpos : 0 < rowTotal weights) :
    rowSum (createRow weights) = 1 ∧ 0 ≤ createRow weights e ∧
    rowSum (laplaceRow counts) = 1 ∧ 0 < laplaceRow counts e := by
  have hden : 0 < countsTotal counts + (EVENT_TYPES.length : ℚ) := by
    have := countsTotal_nonneg counts
    have hlen : (0:ℚ) < (EVENT_TYPES.length : ℚ) := by norm_num [EVENT_TYPES]
    linarith
  refine ⟨?_, ?_, ?_, ?_⟩
  · unfold rowSum createRow
    rw [sum_map_div EVENT_TYPES (mergedWeight weights) (rowTotal weights)]
    exact div_self hpos.ne'
  · exact div_nonneg (hw e) hpos.le
  · unfold rowSum laplaceRow
    rw [sum_map_div EVENT_TYPES (fun a => ((counts a : ℚ) + 1)),
      sum_map_add_one EVENT_TYPES (fun a => ((counts a : ℚ)))]
    exact div_self hden.ne'
  · exact div_pos (by positivity) hden

/-- C2 witness: the theorem instantiated at a row the program actually
builds, and at an all-zero count table. -/
theorem row_construction_valid_witness :
    rowSum (createRow introRowWeights) = 1 ∧
    0 ≤ createRow introRowWeights EventType.Climax ∧
    rowSum (laplaceRow (fun _ => 0)) = 1 ∧
    0 < laplaceRow (fun _ => 0) EventType.Climax :=
  row_construction_valid introRowWeights (fun _ => 0) EventType.Climax
    (by intro a; cases a <;> norm_num [mergedWeight, introRowWeights])
    (by norm_num [rowTotal, EVENT_TYPES, mergedWeight, introRowWeights])

/-- C2 counterexample: `createRow` performs no validation — handed a negative
weight it returns a normalized row rather than rejecting, and that row
contains a negative probability. -/
theorem createRow_accepts_negative :
    createRow negWeights EventType.Dialogue = -(1/90) ∧
    createRow negWeights EventType.Dialogue < 0 := by
  constructor <;>
    norm_num [createRow, negWeights, mergedWeight, rowTotal, EVENT_TYPES]

/-! ## C3 — time-binned matrix lookup -/

/-- For an in-range position the source's bin (clamp at `0.99`) and the
spec's bin (clamp at `0.999`) coincide and lie below the bin count 20:
whenever the two clamps act differently, both computations land in the last
bin `⌊p·20⌋ = 19`. -/
theorem binIndex_eq (i L : ℕ) (hL : 0 < L) (hi : i < L) :
    sourceBinIndex i L = specBinIndex i L ∧ specBinIndex i L < 20 := by
  have hLQ : (0:ℚ) < (L:ℚ) := by exact_mod_cast hL
  have hp0 : (0:ℚ) ≤ (i:ℚ)/(L:ℚ) := by positivity
  have hp1 : (i:ℚ)/(L:ℚ) < 1 := by
    rw [div_lt_one hLQ]
    exact_mod_cast hi
  unfold sourceBinIndex specBinIndex TRAJECTORY_BINS
  rw [max_eq_right hp0]
  by_cases h : (i:ℚ)/(L:ℚ) ≤ 99/100
  · rw [min_eq_right h, min_eq_right (h.trans (by norm_num))]
    have hfl : Int.floor ((i:ℚ)/(L:ℚ) * ((20:ℕ):ℚ)) < (20:ℤ) := by
      rw [Int.floor_lt]
      push_cast
      nlinarith
    have hnn : (0:ℤ) ≤ Int.floor ((i:ℚ)/(L:ℚ) * ((20:ℕ):ℚ)) := by
      apply Int.floor_nonneg.mpr
      positivity
    exact ⟨rfl, by omega⟩
  · push_neg at h
    rw [min_eq_left h.le]
    have h999 : min (999/1000 : ℚ) ((i:ℚ)/(L:ℚ)) ≤ 999/1000 := min_le_left _ _
    have h99 : (99/100 : ℚ) < min (999/1000 : ℚ) ((i:ℚ)/(L:ℚ)) := lt_min (by norm_num) h
    have h1 : Int.floor ((99/100 : ℚ) * ((20:ℕ):ℚ)) = 19 := by
      rw [Int.floor_eq_iff]
      push_cast
      norm_num
    have h2 : Int.floor (min (999/1000 : ℚ) ((i:ℚ)/(L:ℚ)) * ((20:ℕ):ℚ)) = 19 := by
      rw [Int.floor_eq_iff]
      push_cast
      constructor <;> nlinarith
    rw [h1, h2]
    norm_num

/-- The spec-side bin index is monotone in the position. -/
theorem specBinIndex_mono (i j L : ℕ) (hL : 0 < L) (hij : i ≤ j) :
    specBinIndex i L ≤ specBinIndex j L := by
  have hLQ : (0:ℚ) < (L:ℚ) := by exact_mod_cast hL
  have hdiv : (i:ℚ)/(L:ℚ) ≤ (j:ℚ)/(L:ℚ) := by
    apply div_le_div_of_nonneg_right ?_ hLQ.le
    exact_mod_cast hij
  unfold specBinIndex
  apply Int.toNat_le_toNat
  apply Int.floor_le_floor
  apply mul_le_mul_of_nonneg_right _ (by norm_num)
  exact min_le_min le_rfl (max_le_max le_rfl hdiv)

/-- C3: for `0 ≤ i ≤ j < L`, `L > 0` and a 20-bin model, `getMatrixForStep`
(a pure, hence deterministic, function) returns `model[⌊clamp(i/L)·20⌋]` with
the clamp stated by the spec (`[0, 0.999]`); the bin index is in range and
non-decreasing in the position; and on a model missing the computed bin it
falls back to `model[0]`. -/
theorem getMatrixForStep_spec (i j L : ℕ) (model fallbackModel : List TransitionMatrix)
    (hL : 0 < L) (hi : i < L) (hij : i ≤ j) (_hj : j < L) (hlen : model.length = 20)
    (hfb : fallbackModel.get? (sourceBinIndex i L) = none) :
    getMatrixForStep i L model = model.get? (specBinIndex i L) ∧
    specBinIndex i L < 20 ∧
    specBinIndex i L ≤ specBinIndex j L ∧
    getMatrixForStep i L fallbackModel = fallbackModel.get? 0 := by
  obtain ⟨heq, hlt⟩ := binIndex_eq i L hL hi
  refine ⟨?_, hlt, specBinIndex_mono i j L hL hij, ?_⟩
  · unfold getMatrixForStep
    rw [if_neg hL.ne', heq]
    have hsome : specBinIndex i L < model.length := by rw [hlen]; exact hlt
    rw [List.get?_eq_get hsome]
    rfl
  · unfold getMatrixForStep
    rw [if_neg hL.ne', hfb]
    rfl

/-- C3 witness: positions 3 and 14 of a 15-step story over a 20-bin model,
and the `model[0]` fallback on the empty model. -/
theorem getMatrixForStep_spec_witness :
    getMatrixForStep 3 15 (List.replicate 20 zeroMatrix)
      = (List.replicate 20 zeroMatrix).get? (specBinIndex 3 15) ∧
    specBinIndex 3 15 < 20 ∧
    specBinIndex 3 15 ≤ specBinIndex 14 15 ∧
    getMatrixForStep 3 15 ([] : List TransitionMatrix) = ([] : List TransitionMatrix).get? 0 :=
  getMatrixForStep_spec 3 14 15 (List.replicate 20 zeroMatrix) []
    (by norm_num) (by norm_num) (by norm_num) (by norm_num) (by simp) rfl

/-! ## C5 — self-loop dampening -/

/-- Each constraint stage maps a non-negative weight into `[0, weight]`. -/
theorem adjustRequires_bounds (e : EventType) (history : List GenerationStep) (p : ℚ)
    (hp : 0 ≤ p) : 0 ≤ adjustRequires e history p ∧ adjustRequires e history p ≤ p := by
  unfold adjustRequires
  split
  · split
    · exact ⟨hp, le_rfl⟩
    · exact ⟨le_rfl, hp⟩
  · exact ⟨hp, le_rfl⟩

/-- Bounds for the `maxOccurrences` stage. -/
theorem adjustMax_bounds (e : EventType) (history : List GenerationStep) (p : ℚ)
    (hp : 0 ≤ p) : 0 ≤ adjustMax e history p ∧ adjustMax e history p ≤ p := by
  unfold adjustMax
  split
  · split
    · exact ⟨le_rfl, hp⟩
    · exact ⟨hp, le_rfl⟩
  · exact ⟨hp, le_rfl⟩

/-- Bounds for the `minStepProgress` stage. -/
theorem adjustProgress_bounds (e : EventType) (progress p : ℚ)
    (hp : 0 ≤ p) : 0 ≤ adjustProgress e progress p ∧ adjustProgress e progress p ≤ p := by
  unfold adjustProgress
  split
  · split
    · exact ⟨le_rfl, hp⟩
    · exact ⟨hp, le_rfl⟩
  · exact ⟨hp, le_rfl⟩

/-- Bounds for the `cooldown` stage. -/
theorem adjustCooldown_bounds (e : EventType) (history : List GenerationStep) (p : ℚ)
    (hp : 0 ≤ p) : 0 ≤ adjustCooldown e history p ∧ adjustCooldown e history p ≤ p := by
  unfold adjustCooldown
  split
  · split
    · split
      · constructor
        · positivity
        · linarith
      · exact ⟨hp, le_rfl⟩
    · exact ⟨hp, le_rfl⟩
  · exact ⟨hp, le_rfl⟩

/-- C5: for a candidate equal to the immediately preceding label, whenever the
unadjusted row weight is positive the weight produced by `selectNextEvent`'s
adjustment is strictly smaller (the `× 0.3` self-loop penalty of the current
iteration), and likewise for the `× 0.5` penalty of the older iteration. -/
theorem selfLoop_dampening (history : List GenerationStep) (progress prob : ℚ)
    (prevEvent : EventType) (h : 0 < prob) :
    adjustedWeight history progress prevEvent prevEvent prob < prob ∧
    legacySelfLoopWeight prevEvent prevEvent prob < prob := by
  constructor
  · unfold adjustedWeight
    dsimp only
    rw [if_pos rfl]
    obtain ⟨h1a, h1b⟩ := adjustRequires_bounds prevEvent history prob h.le
    obtain ⟨h2a, h2b⟩ := adjustMax_bounds prevEvent history _ h1a
    obtain ⟨h3a, h3b⟩ := adjustProgress_bounds prevEvent progress _ h2a
    obtain ⟨h4a, h4b⟩ := adjustCooldown_bounds prevEvent history _ h3a
    nlinarith
  · unfold legacySelfLoopWeight
    rw [if_pos rfl]
    linarith

/-- C5 witness: a unit self-transition weight is strictly dampened. -/
theorem selfLoop_dampening_witness :
    adjustedWeight [] 0 EventType.Conflict EventType.Conflict 1 < 1 ∧
    legacySelfLoopWeight EventType.Conflict EventType.Conflict 1 < 1 :=
  selfLoop_dampening [] 0 1 EventType.Conflict (by norm_num)

/-! ## C1 — constraint hard gates -/

/-- An unmet `requiresEvent` zeroes the weight. -/
theorem adjustRequires_unmet (e : EventType) (history : List GenerationStep) (p : ℚ)
    (h : unmetRequiresB e history = true) : adjustRequires e history p = 0 := by
  unfold adjustRequires
  unfold unmetRequiresB at h
  split at h
  · rename_i req hre
    simp only [Bool.not_eq_eq_eq_not, Bool.not_true] at h
    simp [h]
  · simp at h

/-- An exhausted `maxOccurrences` zeroes the weight, whatever came in. -/
theorem adjustMax_exhausted (e : EventType) (history : List GenerationStep) (p : ℚ)
    (h : exhaustedMaxB e history = true) : adjustMax e history p = 0 := by
  unfold adjustMax
  unfold exhaustedMaxB at h
  split at h
  · rename_i m hm
    simp only [decide_eq_true_eq] at h
    simp [h]
  · simp at h

/-- The `maxOccurrences` stage preserves a zero weight. -/
theorem adjustMax_zero (e : EventType) (history : List GenerationStep) :
    adjustMax e history 0 = 0 := by
  unfold adjustMax
  split
  · split <;> rfl
  · rfl

/-- The `minStepProgress` stage preserves a zero weight. -/
theorem adjustProgress_zero (e : EventType) (progress : ℚ) :
    adjustProgress e progress 0 = 0 := by
  unfold adjustProgress
  split
  · split <;> rfl
  · rfl

/-- The `cooldown` stage preserves a zero weight. -/
theorem adjustCooldown_zero (e : EventType) (history : List GenerationStep) :
    adjustCooldown e history 0 = 0 := by
  unfold adjustCooldown
  split
  · split
    · split
      · norm_num
      · rfl
    · rfl
  · rfl

/-- A hard-gated label's adjusted weight is exactly 0, whatever the row
weight: both gates zero it and every later stage is multiplicative. -/
theorem adjustedWeight_gated (e : EventType) (history : List GenerationStep)
    (progress : ℚ) (prevEvent : EventType) (p : ℚ) (hg : hardGated e history) :
    adjustedWeight history progress prevEvent e p = 0 := by
  unfold adjustedWeight
  dsimp only
  have h2 : adjustMax e history (adjustRequires e history p) = 0 := by
    rcases hg with h | h
    · rw [adjustRequires_unmet e history p h]
      exact adjustMax_zero e history
    · exact adjustMax_exhausted e history _ h
  rw [h2, adjustProgress_zero, adjustCooldown_zero]
  split <;> norm_num

/-- A label the cumulative walk picks from a strictly positive start owns a
strictly positive entry of the walked list. -/
theorem pickFrom_pos_of_mem (r : ℚ) (e : EventType) :
    ∀ (l : List (EventType × ℚ)) (cum : ℚ), cum < r →
      pickFrom r cum l = some e → ∃ p, (e, p) ∈ l ∧ 0 < p := by
  intro l
  induction l with
  | nil => intro cum _ hpick; simp [pickFrom] at hpick
  | cons x rest ih =>
      intro cum hcum hpick
      obtain ⟨a, q⟩ := x
      unfold pickFrom at hpick
      split at hpick
      · rename_i hle
        obtain rfl : a = e := by injection hpick
        exact ⟨q, List.mem_cons_self _ _, by linarith⟩
      · rename_i hgt
        push_neg at hgt
        obtain ⟨p, hmem, hp⟩ := ih (cum + q) hgt hpick
        exact ⟨p, List.mem_cons_of_mem _ hmem, hp⟩

/-- The cumulative walk over a nonempty list whose total reaches the draw
always picks something (the sampler's last-entry fallback is for rounding
only). -/
theorem pickFrom_isSome (r : ℚ) :
    ∀ (l : List (EventType × ℚ)) (cum : ℚ), l ≠ [] →
      r ≤ cum + (l.map Prod.snd).sum → (pickFrom r cum l).isSome = true := by
  intro l
  induction l with
  | nil => intro cum h _; exact absurd rfl h
  | cons x rest ih =>
      intro cum _ hsum
      obtain ⟨a, q⟩ := x
      unfold pickFrom
      split
      · rfl
      · rename_i hgt
        push_neg at hgt
        rcases hrest : rest with _ | ⟨y, ys⟩
        · subst hrest
          simp only [List.map_nil, List.sum_nil, List.map_cons, List.sum_cons] at hsum
          exact absurd (by linarith : r ≤ cum + q) (by push_neg; exact hgt)
        · subst hrest
          apply ih (cum + q) (by simp)
          simp only [List.map_cons, List.sum_cons] at hsum ⊢
          linarith

/-- Dynamic mode never produces a hard-gated label, for a strictly interior
draw and a label other than the fallback default `Rising_Action`. -/
theorem dynamicSelect_ne_gated (M : TransitionMatrix) (stepIndex : ℕ)
    (prevEvent : EventType) (totalLength : ℕ) (history : List GenerationStep)
    (r : ℚ) (e : EventType) (hg : hardGated e history) (hr0 : 0 < r) (hr1 : r < 1)
    (hne : e ≠ EventType.Rising_Action) :
    dynamicSelect M stepIndex prevEvent totalLength history r ≠ e := by
  unfold dynamicSelect
  dsimp only
  have hzero : ∀ q : ℚ,
      (e, q) ∈ rowEntries M history ((stepIndex : ℚ)/(totalLength : ℚ)) prevEvent → q = 0 := by
    intro q hq
    unfold rowEntries at hq
    simp only [List.mem_map, Prod.mk.injEq] at hq
    obtain ⟨ev, -, hev, hadj⟩ := hq
    rw [← hadj, hev]
    exact adjustedWeight_gated e history _ prevEvent _ hg
  split
  · split
    · rename_i x hfind
      have hmem : x ∈ rowEntries M history ((stepIndex : ℚ)/(totalLength : ℚ)) prevEvent :=
        List.mem_of_find?_eq_some hfind
      have hpos : 0 < x.2 := by
        have := List.find?_some hfind
        simpa using this
      intro hx1
      have : x.2 = 0 := by
        apply hzero
        rw [← hx1]
        simpa using hmem
      linarith
    · intro hcontra
      exact hne hcontra.symm
  · rename_i hT
    push_neg at hT
    have hTpos : 0 < ((rowEntries M history ((stepIndex : ℚ)/(totalLength : ℚ)) prevEvent).map
        Prod.snd).sum := lt_trans (by norm_num) hT
    have hsum : (((rowEntries M history ((stepIndex : ℚ)/(totalLength : ℚ)) prevEvent).map
        (fun x => (x.1, x.2 / ((rowEntries M history ((stepIndex : ℚ)/(totalLength : ℚ))
          prevEvent).map Prod.snd).sum))).map Prod.snd).sum = 1 := by
      rw [List.map_map]
      have hco : (Prod.snd ∘ fun x : EventType × ℚ =>
          (x.1, x.2 / ((rowEntries M history ((stepIndex : ℚ)/(totalLength : ℚ))
            prevEvent).map Prod.snd).sum))
          = fun x : EventType × ℚ => Prod.snd x / ((rowEntries M history
            ((stepIndex : ℚ)/(totalLength : ℚ)) prevEvent).map Prod.snd).sum := rfl
      rw [hco, sum_map_div]
      exact div_self hTpos.ne'
    have hpick : (pickFrom r 0 ((rowEntries M history ((stepIndex : ℚ)/(totalLength : ℚ))
        prevEvent).map (fun x => (x.1, x.2 / ((rowEntries M history
          ((stepIndex : ℚ)/(totalLength : ℚ)) prevEvent).map Prod.snd).sum)))).isSome = true := by
      apply pickFrom_isSome
      · simp [rowEntries, EVENT_TYPES]
      · rw [hsum]
        linarith
    obtain ⟨x, hx⟩ := Option.isSome_iff_exists.mp hpick
    rw [hx]
    show x ≠ e
    intro hx1
    rw [hx1] at hx
    obtain ⟨q, hmem, hq⟩ := pickFrom_pos_of_mem r e _ 0 hr0 hx
    simp only [List.mem_map, Prod.mk.injEq] at hmem
    obtain ⟨y, hy, hy1, hy2⟩ := hmem
    have hy0 : y.2 = 0 := by
      apply hzero
      rw [← hy1]
      simpa using hy
    rw [hy0] at hy2
    simp at hy2
    linarith [hq, hy2.symm]

/-- C1 (amended): a hard-gated label's weight is set to exactly 0 before
normalization, and — for a strictly positive draw `0 < r < 1` and a gated
label other than the fallback default `Rising_Action` — the selector in
Dynamic Mode never returns it, through the sampler, the zero-total-weight
fallback, or the last-entry fallback.  (At `r = 0`, and for `Rising_Action`
as the default of an all-zero adjusted row, the gate can be bypassed:
`hard_gate_counterexample`.) -/
theorem hard_gate_amended (stepIndex totalLength : ℕ) (prevEvent e : EventType)
    (trajectory : List TransitionMatrix) (history : List GenerationStep) (r p : ℚ)
    (hg : hardGated e history) (hr0 : 0 < r) (hr1 : r < 1)
    (hne : e ≠ EventType.Rising_Action) (_hL : 0 < totalLength) :
    adjustedWeight history ((stepIndex : ℚ)/(totalLength : ℚ)) prevEvent e p = 0 ∧
    selectNextEvent none stepIndex prevEvent trajectory totalLength history r ≠ some e := by
  refine ⟨adjustedWeight_gated e history _ prevEvent p hg, ?_⟩
  unfold selectNextEvent
  cases hM : getMatrixForStep stepIndex totalLength trajectory with
  | none => simp
  | some M =>
      simp only [Option.map_some']
      intro hcontra
      injection hcontra with hcontra
      exact dynamicSelect_ne_gated M stepIndex prevEvent totalLength history r e
        hg hr0 hr1 hne hcontra

/-- C1 witness (the spec's scenario B): `Climax` has `maxOccurrences = 1` and
the history already holds one `Climax`; its weight is forced to 0 and it is
never sampled. -/
theorem hard_gate_amended_witness :
    adjustedWeight [mkStep EventType.Climax] (((10:ℕ):ℚ)/((15:ℕ):ℚ))
      EventType.Conflict EventType.Climax (9/10) = 0 ∧
    selectNextEvent none 10 EventType.Conflict [zeroMatrix] 15
      [mkStep EventType.Climax] (1/2) ≠ some EventType.Climax :=
  hard_gate_amended 10 15 EventType.Conflict EventType.Climax [zeroMatrix]
    [mkStep EventType.Climax] (1/2) (9/10) (by decide) (by norm_num) (by norm_num)
    (by decide) (by norm_num)

/-- C1 counterexample, two concrete runs refuting "for every draw `r` in
`[0,1)` the sampler never returns the gated label": (a) `Introduction` is
hard-gated (`maxOccurrences` exhausted) yet the draw `r = 0` selects it — the
cumulative walk accepts the very first entry at cumulative weight 0; (b)
`Rising_Action` is hard-gated (`requiresEvent` unmet, empty history) yet the
zero-total-weight fallback returns it as the hard-coded default of an
all-zero adjusted row, even at `r = 1/2`. -/
theorem hard_gate_counterexample :
    (hardGated EventType.Introduction [mkStep EventType.Introduction] ∧
      selectNextEvent none 1 EventType.Dialogue [selfLoopMatrix] 15
        [mkStep EventType.Introduction] 0 = some EventType.Introduction) ∧
    (hardGated EventType.Rising_Action ([] : List GenerationStep) ∧
      selectNextEvent none 1 EventType.Introduction [zeroMatrix] 15 [] (1/2)
        = some EventType.Rising_Action) := by
  refine ⟨⟨by decide, ?_⟩, ⟨by decide, ?_⟩⟩
  · norm_num +decide [selectNextEvent, getMatrixForStep, sourceBinIndex, TRAJECTORY_BINS,
      dynamicSelect, rowEntries, EVENT_TYPES, adjustedWeight, adjustRequires,
      adjustMax, adjustProgress, adjustCooldown, occurrenceCount, GLOBAL_CONSTRAINTS,
      selfLoopMatrix, mkStep, pickFrom]
  · norm_num +decide [selectNextEvent, getMatrixForStep, sourceBinIndex, TRAJECTORY_BINS,
      dynamicSelect, rowEntries, EVENT_TYPES, adjustedWeight, adjustRequires,
      adjustMax, adjustProgress, adjustCooldown, occurrenceCount, GLOBAL_CONSTRAINTS,
      zeroMatrix, mkStep, pickFrom]

/-! ## C6 — degenerate-row fallback -/

/-- C6 (amended): when the constraint-adjusted total row weight is at most
the `1e-4` epsilon, `selectNextEvent` returns — without throwing — the first
label in alphabet order with strictly positive *adjusted* weight, or the
default safety label `Rising_Action` when none exists.  (The claim's "first
label with strictly positive original probability" is refuted by
`degenerate_fallback_counterexample`: the code searches the adjusted
entries.) -/
theorem degenerate_fallback (M : TransitionMatrix) (trajectory : List TransitionMatrix)
    (stepIndex totalLength : ℕ) (prevEvent : EventType) (history : List GenerationStep)
    (r : ℚ)
    (hM : getMatrixForStep stepIndex totalLength trajectory = some M)
    (hT : totalAdjustedWeight M history ((stepIndex : ℚ)/(totalLength : ℚ)) prevEvent
      ≤ 1/10000) :
    selectNextEvent none stepIndex prevEvent trajectory totalLength history r
      = some (firstPositiveAdjusted M history ((stepIndex : ℚ)/(totalLength : ℚ)) prevEvent) := by
  unfold selectNextEvent
  rw [hM]
  simp only [Option.map_some']
  congr 1
  unfold totalAdjustedWeight at hT
  unfold dynamicSelect
  dsimp only
  rw [if_pos hT]
  unfold firstPositiveAdjusted rowEntries
  rw [List.find?_map]
  have hconv : ((fun x : EventType × ℚ => decide (0 < x.2)) ∘ fun e =>
      (e, adjustedWeight history ((stepIndex : ℚ)/(totalLength : ℚ)) prevEvent e
        (M prevEvent e)))
      = fun e => decide (0 < adjustedWeight history ((stepIndex : ℚ)/(totalLength : ℚ))
          prevEvent e (M prevEvent e)) := rfl
  rw [hconv]
  cases hfind : EVENT_TYPES.find? (fun e => decide (0 < adjustedWeight history
      ((stepIndex : ℚ)/(totalLength : ℚ)) prevEvent e (M prevEvent e))) with
  | none => simp [hfind]
  | some x => simp [hfind]

/-- C6 witness: a row whose only surviving adjusted weight (`Dialogue`,
`0.00005`) leaves the total at `0.00005 ≤ 1e-4`; the fallback label is
returned (no exception). -/
theorem degenerate_fallback_witness :
    selectNextEvent none 1 EventType.Conflict [degenMatrix] 15
      [mkStep EventType.Introduction] (1/2)
      = some (firstPositiveAdjusted degenMatrix [mkStep EventType.Introduction]
          (((1:ℕ):ℚ)/((15:ℕ):ℚ)) EventType.Conflict) :=
  degenerate_fallback degenMatrix [degenMatrix] 1 15 EventType.Conflict
    [mkStep EventType.Introduction] (1/2)
    (by norm_num +decide [getMatrixForStep, sourceBinIndex, TRAJECTORY_BINS, max_def, min_def])
    (by norm_num +decide [totalAdjustedWeight, rowEntries, EVENT_TYPES, adjustedWeight,
      adjustRequires, adjustMax, adjustProgress, adjustCooldown, occurrenceCount,
      GLOBAL_CONSTRAINTS, degenMatrix, mkStep])

/-- C6 counterexample: in a degenerate row (`total = 0.00005 ≤ 1e-4`) the
first label with positive *original* probability is `Introduction`
(matrix weight `0.9`, hard-gated to 0), yet the code returns `Dialogue`, the
first label with positive *adjusted* weight — refuting the claim's "first
label with strictly positive original (pre-adjustment) probability". -/
theorem degenerate_fallback_counterexample :
    totalAdjustedWeight degenMatrix [mkStep EventType.Introduction]
      (((1:ℕ):ℚ)/((15:ℕ):ℚ)) EventType.Conflict ≤ 1/10000 ∧
    specFirstPositiveOriginal degenMatrix EventType.Conflict = EventType.Introduction ∧
    selectNextEvent none 1 EventType.Conflict [degenMatrix] 15
      [mkStep EventType.Introduction] (1/2) = some EventType.Dialogue ∧
    EventType.Dialogue ≠ EventType.Introduction := by
  refine ⟨?_, ?_, ?_, by decide⟩
  · norm_num +decide [totalAdjustedWeight, rowEntries, EVENT_TYPES, adjustedWeight,
      adjustRequires, adjustMax, adjustProgress, adjustCooldown, occurrenceCount,
      GLOBAL_CONSTRAINTS, degenMatrix, mkStep]
  · norm_num +decide [specFirstPositiveOriginal, EVENT_TYPES, degenMatrix]
  · norm_num +decide [selectNextEvent, getMatrixForStep, sourceBinIndex, TRAJECTORY_BINS,
      dynamicSelect, rowEntries, EVENT_TYPES, adjustedWeight, adjustRequires,
      adjustMax, adjustProgress, adjustCooldown, occurrenceCount, GLOBAL_CONSTRAINTS,
      degenMatrix, mkStep, pickFrom]

/-! ## C9 — fixed start label -/

/-- C9 (amended): with no ActiveOverride the label committed at position 0 is
the fixed start label `Introduction`; with an ActiveOverride it is the
override sequence's first entry instead (`step_zero_counterexample`), not
`Introduction` unconditionally as the claim states. -/
theorem step_zero_amended (arch : DiscoveredPath) :
    stepZeroEvent none = some EventType.Introduction ∧
    stepZeroEvent (some arch) = arch.sequence.get? 0 :=
  ⟨rfl, rfl⟩

/-- C9 counterexample: an "In Media Res" archetype starts the story with
`Inciting_Incident`, so step 0 does not commit `Introduction`. -/
theorem step_zero_counterexample :
    stepZeroEvent (some ⟨"path-0", [EventType.Inciting_Incident], 5, 50, "In Media Res Start"⟩)
      = some EventType.Inciting_Incident ∧
    some EventType.Inciting_Incident ≠ some EventType.Introduction :=
  ⟨rfl, by decide⟩

/-! ## C10 — strict archetype override -/

/-- C10: with an ActiveOverride set, `selectNextEvent` returns exactly the
override sequence's entry at the current position whenever one exists — not
consulting the trajectory model, the constraint layer, the self-loop penalty
or the draw `r` (none of them occur in that branch of the right-hand side,
which holds for *every* history, trajectory and `r`, including histories that
hard-gate the entry) — and falls back to Dynamic Mode exactly when the
sequence has no entry at that position. -/
theorem override_strict (arch : DiscoveredPath) (stepIndex : ℕ) (prevEvent : EventType)
    (trajectory : List TransitionMatrix) (totalLength : ℕ)
    (history : List GenerationStep) (r : ℚ) :
    selectNextEvent (some arch) stepIndex prevEvent trajectory totalLength history r
      = (arch.sequence.get? stepIndex).orElse
          (fun _ => selectNextEvent none stepIndex prevEvent trajectory totalLength history r) := by
  unfold selectNextEvent
  dsimp only
  cases harch : arch.sequence.get? stepIndex with
  | none => simp only [harch]; rfl
  | some e => simp only [harch]; rfl

/-! ## C4 — retry bound of the execution coordinator -/

/-- C4: the generate/verify retry loop (a total function: its termination
measure is `MAX_RETRIES + 1 - retryCount`) issues at least one and at most
`MAX_RETRIES + 1 = 3` attempt pairs; when the last attempt is still
unverified the loop has spent all 3 attempts and the step is committed
anyway, carrying `verified = false` and the last attempt's text. -/
theorem retry_bound (attempts : ℕ → AttemptResult) (i : ℕ) (e : EventType) (t : ℕ) :
    1 ≤ (runRetryLoop attempts).1 ∧
    (runRetryLoop attempts).1 ≤ MAX_RETRIES + 1 ∧
    ((runRetryLoop attempts).2.2.verified = false →
      (commitStep i e t (runRetryLoop attempts)).verified = false ∧
      (commitStep i e t (runRetryLoop attempts)).generatedText = (attempts MAX_RETRIES).text ∧
      (runRetryLoop attempts).1 = MAX_RETRIES + 1 ∧
      (runRetryLoop attempts).2.1 = MAX_RETRIES + 1) := by
  unfold runRetryLoop MAX_RETRIES
  by_cases h0 : (attempts 0).verified
  · rw [retryLoopGo]
    simp [h0, commitStep]
  · by_cases h1 : (attempts 1).verified
    · rw [retryLoopGo, retryLoopGo]
      simp [h0, h1, commitStep]
    · by_cases h2 : (attempts 2).verified
      · rw [retryLoopGo, retryLoopGo, retryLoopGo]
        simp [h0, h1, h2, commitStep]
      · rw [retryLoopGo, retryLoopGo, retryLoopGo]
        simp [h0, h1, h2, commitStep]

/-! ## C7 — archetype aggregation -/

/-- Once a key is present in the accumulator, folding more copies of it
leaves the key list unchanged. -/
theorem foldl_keys_replicate (s : List EventType) :
    ∀ (n : ℕ) (acc : List (List EventType)), s ∈ acc →
      List.foldl (fun acc p => if p ∈ acc then acc else acc ++ [p]) acc
        (List.replicate n s) = acc := by
  intro n
  induction n with
  | zero => intro acc _; rfl
  | succ m ih =>
      intro acc hmem
      rw [List.replicate_succ, List.foldl_cons, if_pos hmem]
      exact ih acc hmem

/-- A corpus of identical paths yields the single key `[s]`. -/
theorem firstKeys_replicate (s : List EventType) (n : ℕ) (hn : 0 < n) :
    firstKeys (List.replicate n s) = [s] := by
  obtain ⟨m, rfl⟩ : ∃ m, n = m + 1 := ⟨n - 1, by omega⟩
  unfold firstKeys
  rw [List.replicate_succ, List.foldl_cons]
  have h1 : (if s ∈ ([] : List (List EventType)) then ([] : List (List EventType))
      else [] ++ [s]) = [s] := by simp
  rw [h1]
  exact foldl_keys_replicate s m [s] (by simp)

/-- Counting the repeated path over the replicated corpus gives the corpus
size. -/
theorem countPath_replicate (s : List EventType) (n : ℕ) :
    countPath (List.replicate n s) s = n := by
  induction n with
  | zero => rfl
  | succ m ih =>
      unfold countPath at ih ⊢
      rw [List.replicate_succ, List.filter_cons]
      simp only [decide_eq_true_eq, decide_True, if_pos rfl]
      simp [ih]

/-- C7: when every processed story yields the exact same label sequence `s`,
mining produces exactly one `DiscoveredPath`; its frequency is the number of
processed stories and its percentage is 100. -/
theorem archetype_aggregation (s : List EventType) (n : ℕ) (hn : 0 < n) :
    aggregatePaths (List.replicate n s) =
      [{ id := "path-0", sequence := s, frequency := n,
         percentage := 100, name := generatePathName s }] := by
  unfold aggregatePaths
  rw [firstKeys_replicate s n hn]
  have hnq : ((n:ℚ)) ≠ 0 := by exact_mod_cast hn.ne'
  simp only [List.enum, List.enumFrom, List.map_cons, List.map_nil,
    countPath_replicate, List.length_replicate, sortByFreqDesc, insertPath,
    List.take]
  congr 1
  · congr 1
    rw [div_mul_eq_mul_div, div_eq_iff hnq]
    ring

/-- C7 witness: three identical three-step stories produce one archetype of
frequency 3 and percentage 100. -/
theorem archetype_aggregation_witness :
    aggregatePaths (List.replicate 3
        [EventType.Introduction, EventType.Conflict, EventType.Resolution]) =
      [{ id := "path-0",
         sequence := [EventType.Introduction, EventType.Conflict, EventType.Resolution],
         frequency := 3, percentage := 100,
         name := generatePathName
           [EventType.Introduction, EventType.Conflict, EventType.Resolution] }] :=
  archetype_aggregation [EventType.Introduction, EventType.Conflict, EventType.Resolution]
    3 (by norm_num)

/-! ## C8 — miner failure recovery -/

/-- C8: a label string outside the fixed alphabet is coerced to
`Description`; a thrown classification call is substituted by the
`Rising_Action` filler; and the per-story loop yields one label per segment
whatever the outcomes — a single segment failure never aborts the run. -/
theorem miner_failure_recovery (s : String) (outcomes : List (Except Unit String))
    (hs : ∀ e : EventType, eventLabelString e ≠ s) :
    classifySegmentResult (Except.ok s) = EventType.Description ∧
    classifySegmentResult (Except.error ()) = EventType.Rising_Action ∧
    (classifyStorySegments outcomes).length = outcomes.length := by
  refine ⟨?_, rfl, by simp [classifyStorySegments]⟩
  unfold classifySegmentResult parseEventLabel
  dsimp only
  have hnone : EVENT_TYPES.find? (fun e => decide (eventLabelString e = s)) = none := by
    apply List.find?_eq_none.mpr
    intro x _
    simp [hs x]
  rw [hnone]

/-- C8 witness: the hallucinated label "Flashback" is coerced to
`Description`; an erroring call contributes `Rising_Action`; a story with one
failed and one successful segment still yields a label for every segment. -/
theorem miner_failure_recovery_witness :
    classifySegmentResult (Except.ok "Flashback") = EventType.Description ∧
    classifySegmentResult (Except.error ()) = EventType.Rising_Action ∧
    (classifyStorySegments [Except.error (), Except.ok "Climax"]).length
      = ([Except.error (), Except.ok "Climax"] : List (Except Unit String)).length :=
  miner_failure_recovery "Flashback" [Except.error (), Except.ok "Climax"]
    (by intro e; cases e <;> simp [eventLabelString])

end NeuroSymbolic
